import Mathlib

/-!
Verification of the reply lifecycle engine of SmartReachAgent.

Strings are modelled as `List Char` (Python `str`).  Wall-clock instants are
modelled as natural numbers of seconds; `datetime.strftime('%Y-%m-%d %H:%M:%S')`
/ `datetime.strptime` are modelled by an injective rendering `fmtTsChars` and
its inverse `parseTsChars` over a simplified calendar (12 months of 31 days),
which preserves the two facts the code depends on: rendering round-trips
through parsing, and the chronological order of instants agrees with the order
of the underlying counters.  Python exceptions caught by the source's
`try/except` blocks are modelled by `Option`-valued partial operations whose
failure takes the source's `except` path.
-/

namespace SmartReach


/-- The decimal digit character for `n` (`0 ≤ n ≤ 9`), code point `48 + n`. -/
def digitChar (n : Nat) : Char := Char.ofNat (48 + n)

/-- Numeric value of a decimal digit character, `none` on any other character
(models the failure of `int`/`strptime` field parsing). -/
def digitVal? (c : Char) : Option Nat :=
  if 48 ≤ c.toNat ∧ c.toNat ≤ 57 then some (c.toNat - 48) else none

/-- Two-digit zero-padded rendering of `n % 100`, as `strftime` does for
`%m`, `%d`, `%H`, `%M`, `%S`. -/
def pad2 (n : Nat) : List Char := [digitChar (n / 10 % 10), digitChar (n % 10)]

/-- Four-digit zero-padded rendering of `n % 10000`, as `strftime` does for
`%Y` on the years the program can produce. -/
def pad4 (n : Nat) : List Char :=
  [digitChar (n / 1000 % 10), digitChar (n / 100 % 10),
   digitChar (n / 10 % 10), digitChar (n % 10)]

/-- Python's substring test `needle in hay`. -/
def pyContains (needle hay : List Char) : Bool :=
  (List.range (hay.length + 1)).any fun i => needle.isPrefixOf (hay.drop i)

/-- Python's `str.split(sep)` for a single-character separator `sep`. -/
def splitOnChar (sep : Char) : List Char → List (List Char)
  | [] => [[]]
  | c :: rest =>
    let r := splitOnChar sep rest
    if c = sep then [] :: r else (c :: r.headD []) :: r.tail

/-- Python's `str.lower()` (ASCII fragment). -/
def pyLower (l : List Char) : List Char := l.map Char.toLower

/-- Python's `str.title()` (ASCII fragment): the first character of every
alphabetic run is upper-cased, the rest of the run lower-cased. -/
def pyTitle (l : List Char) : List Char := go false l
where
  go : Bool → List Char → List Char
  | _, [] => []
  | prevAlpha, c :: cs =>
    (if c.isAlpha then (if prevAlpha then c.toLower else c.toUpper) else c)
      :: go c.isAlpha cs

/-- Python's `str.strip()`: whitespace removed from both ends. -/
def pyStrip (l : List Char) : List Char :=
  ((l.dropWhile Char.isWhitespace).reverse.dropWhile Char.isWhitespace).reverse

/-- Python's `str.split(sep)` for a non-empty separator string:
left-to-right scan, non-overlapping matches. -/
def splitOnList (sep : List Char) (acc : List Char) : List Char → List (List Char)
  | [] => [acc.reverse]
  | c :: rest =>
    if sep.isPrefixOf (c :: rest) then
      acc.reverse :: splitOnList sep [] (List.drop (sep.length - 1) rest)
    else
      splitOnList sep (c :: acc) rest
termination_by l => l.length
decreasing_by
  · simp only [List.length_cons, List.length_drop]
    omega
  · simp

/-! ### Timestamp rendering and parsing

`mark_as_manually_handled` writes `datetime.now().strftime('%Y-%m-%d %H:%M:%S')`
and `was_manually_handled` reads it back with `datetime.strptime` on the same
format.  An instant is a count `t : Nat` of seconds; the calendar uses twelve
31-day months, so the rendering is injective for `t < tsBound` (year < 10000,
mirroring Python's `datetime.max` limit of year 9999). -/

/-- Upper bound on representable instants: year 10000 in the simplified
calendar (`10000 * 372 * 86400` seconds). -/
def tsBound : Nat := 321408000000

/-- The `'%Y-%m-%d %H:%M:%S'` rendering of the instant `t`. -/
def fmtTsChars (t : Nat) : List Char :=
  let D := t / 86400
  pad4 (D / 372) ++ '-' :: pad2 (D % 372 / 31 + 1) ++ '-' :: pad2 (D % 31 + 1)
    ++ ' ' :: pad2 (t % 86400 / 3600) ++ ':' :: pad2 (t % 3600 / 60)
    ++ ':' :: pad2 (t % 60)

/-- Numeric value of a two-digit field, `none` if either character is not a
decimal digit. -/
def digits2? (c1 c0 : Char) : Option Nat := do
  let a ← digitVal? c1
  let b ← digitVal? c0
  some (a * 10 + b)

/-- Numeric value of a four-digit field, `none` if any character is not a
decimal digit. -/
def digits4? (c3 c2 c1 c0 : Char) : Option Nat := do
  let a ← digits2? c3 c2
  let b ← digits2? c1 c0
  some (a * 100 + b)

/-- `datetime.strptime(s, '%Y-%m-%d %H:%M:%S')`: `none` models the
`ValueError` the source catches.  Field ranges are validated as `strptime`
does (month 1–12, day 1–31, hour < 24, minute < 60, second < 60). -/
def parseTsChars : List Char → Option Nat
  | [y3, y2, y1, y0, c1, m1, m0, c2, d1, d0, c3, h1, h0, c4, i1, i0, c5, s1, s0] =>
    if c1 = '-' ∧ c2 = '-' ∧ c3 = ' ' ∧ c4 = ':' ∧ c5 = ':' then do
      let y ← digits4? y3 y2 y1 y0
      let m ← digits2? m1 m0
      let d ← digits2? d1 d0
      let h ← digits2? h1 h0
      let mi ← digits2? i1 i0
      let s ← digits2? s1 s0
      if 1 ≤ m ∧ m ≤ 12 ∧ 1 ≤ d ∧ d ≤ 31 ∧ h < 24 ∧ mi < 60 ∧ s < 60 then
        some (((y * 372 + (m - 1) * 31 + (d - 1)) * 86400) + h * 3600 + mi * 60 + s)
      else none
    else none
  | _ => none

/-! ### The manual-handling (suppression) log

`NOTIFICATION_LOG` is modelled as the list of its lines (without the trailing
newline each `f.write` appends).  A missing file is `none` at the
`was_manually_handled` interface (its `open` raises, and the surrounding bare
`except` returns `False`). -/

/-- The line `mark_as_manually_handled` appends:
`[<timestamp>] MANUAL_HANDLED | Customer: <email>`. -/
def manualHandledLine (now : Nat) (email : List Char) : List Char :=
  '[' :: fmtTsChars now ++ ']' :: (" MANUAL_HANDLED | Customer: ".toList ++ email)

/-- `mark_as_manually_handled(customer_email)`: appends one event line; it
never deduplicates or removes prior events. -/
def mark_as_manually_handled (log : List (List Char)) (now : Nat)
    (email : List Char) : List (List Char) :=
  log ++ [manualHandledLine now email]

/-- The line `send_notification_to_user` appends on successful delivery:
`[<timestamp>] NOTIFICATION_SENT | Customer: <email> | Reason: <reason>`
(a `None` reason is interpolated as the text `None`, as in Python). -/
def notifSentLine (now : Nat) (email : List Char) (reason : Option (List Char)) :
    List Char :=
  '[' :: fmtTsChars now ++ ']' :: (" NOTIFICATION_SENT | Customer: ".toList
    ++ email ++ " | Reason: ".toList ++ reason.getD "None".toList)

/-- `line.split('[')[1].split(']')[0]`: the text between the first `[` and the
following `]`.  `none` models the `IndexError` when the line has no `[`. -/
def extractTs (line : List Char) : Option (List Char) :=
  match splitOnChar '[' line with
  | _ :: x :: _ => some ((splitOnChar ']' x).headD [])
  | _ => none

/-- The scan of `was_manually_handled` over the log lines.  A line is
examined only if it contains both the queried email and `MANUAL_HANDLED` as
substrings; an examined line whose bracketed field is missing or unparseable
aborts the whole scan with `False` (the source's bare `except`). -/
def was_manually_handled_lines (email : List Char) (now hours : Nat) :
    List (List Char) → Bool
  | [] => false
  | line :: rest =>
    if pyContains email line && pyContains "MANUAL_HANDLED".toList line then
      match extractTs line with
      | none => false
      | some ts =>
        match parseTsChars ts with
        | none => false
        | some t =>
          if (now : Int) - (hours : Int) * 3600 < (t : Int) then true
          else was_manually_handled_lines email now hours rest
    else was_manually_handled_lines email now hours rest

/-- `was_manually_handled(customer_email, hours)`: scans the notification log
for a recent `MANUAL_HANDLED` entry mentioning the email; any exception
(missing file, malformed line, unparseable timestamp) yields `False`. -/
def was_manually_handled (log : Option (List (List Char))) (email : List Char)
    (now hours : Nat) : Bool :=
  match log with
  | none => false
  | some lines => was_manually_handled_lines email now hours lines

/-- A line does not match the scan of `was_manually_handled` for `email`:
it lacks the email or the `MANUAL_HANDLED` tag as a substring. -/
def lineSkipped (email line : List Char) : Bool :=
  !(pyContains email line && pyContains "MANUAL_HANDLED".toList line)

/-! ### The draft generator -/

/-- Outcome of the `try` block of `generate_ai_response` up to the point where
the model output has been JSON-parsed.  The model call and `json.loads` are
external collaborators, so their combined outcome is an oracle input: either
some exception was raised inside the `try` (model failure, unparseable output,
absent fields), carrying Python's `str(e)`, or a parsed object with its
`response` string and `needs_human` flag. -/
inductive RunResult where
  | error (msg : List Char)
  | ok (resp : List Char) (needsHuman : Bool)
deriving DecidableEq

/-- `generate_ai_response`: returns `(ai_response, reason)`.  On any exception
the source returns `(None, str(e))`.  On parsed output it checks the
`NEEDS_HUMAN_INTERVENTION` sentinel (splitting on the colon-suffixed marker —
a marker without the colon raises `IndexError`, caught by the same `except`),
otherwise returns the response together with `"Complex query"` when
`needs_human` was set. -/
def generate_ai_response (r : RunResult) : Option (List Char) × Option (List Char) :=
  match r with
  | .error e => (none, some e)
  | .ok resp needsHuman =>
    if pyContains "NEEDS_HUMAN_INTERVENTION".toList resp then
      match (splitOnList "NEEDS_HUMAN_INTERVENTION:".toList [] resp).get? 1 with
      | some tail => (none, some (pyStrip tail))
      | none => (none, some "list index out of range".toList)
    else (resp, if needsHuman then some "Complex query".toList else none)

/-- Python truthiness of `ai_response` in `if ai_response:`: a present,
non-empty string. -/
def pyTruthyOpt : Option (List Char) → Bool
  | none => false
  | some s => !s.isEmpty

/-! ### The reply processing state machine

`process_customer_replies` iterates over a snapshot (`replies[:]`) of the
pending queue, mutating the live list, the conversation log and the
notification log, and finally persists the live list back to `replies.json`.
The mail transport and the draft generator are external collaborators; their
per-iteration outcomes form the oracle list `envs` (one `StepEnv` per
processed reply, consumed in order).  `datetime.now()` is modelled as the
single instant `now` for the pass. -/

/-- A pending reply record, as stored in `replies.json`. -/
structure Reply where
  from_email : List Char
  subject : List Char
  body : List Char
  timestamp : List Char
  gmail_link : List Char
deriving DecidableEq

/-- One record of `conversation_log.json` (timestamps kept as instants). -/
structure ConvEntry where
  timestamp : Nat
  customer_email : List Char
  customer_name : List Char
  customer_message : List Char
  ai_response : Option (List Char)
  needs_human : Bool
  escalation_reason : Option (List Char)
deriving DecidableEq

/-- The ephemeral `stats` counters of one pass. -/
structure Stats where
  ai_responded : Nat
  escalated_to_human : Nat
  skipped_manual : Nat
  failed : Nat
deriving DecidableEq

/-- The durable stores touched by a pass, plus the pass's counters; `replies`
is the live (mutated) pending queue that the pass persists at its end. -/
structure Stores where
  replies : List Reply
  conversations : List ConvEntry
  notifLog : List (List Char)
  stats : Stats
deriving DecidableEq

/-- External outcomes for one iteration: the generator result, whether
`send_email_response` succeeds, whether `send_notification_to_user`
succeeds. -/
structure StepEnv where
  gen : RunResult
  sendOk : Bool
  notifyOk : Bool
deriving DecidableEq

/-- Oracle used when the oracle list is exhausted (never reached when the
list covers the queue). -/
def defaultStepEnv : StepEnv := ⟨.error [], false, false⟩

/-- `log_conversation`: loads the log, appends one record, saves it back. -/
def log_conversation (conversations : List ConvEntry) (now : Nat)
    (email name msg : List Char) (response : Option (List Char))
    (needs_human : Bool) (reason : Option (List Char)) : List ConvEntry :=
  conversations ++ [⟨now, email, name, msg, response, needs_human, reason⟩]

/-- The body of the `for reply in replies[:]` loop for one reply. -/
def processStep (env : StepEnv) (now : Nat) (st : Stores) (reply : Reply) :
    Stores :=
  let email := pyLower reply.from_email
  let name := pyTitle ((splitOnChar '@' email).headD [])
  let body := reply.body
  if was_manually_handled (some st.notifLog) email now 24 then
    { st with stats := { st.stats with
        skipped_manual := st.stats.skipped_manual + 1 } }
  else
    let res := generate_ai_response env.gen
    if pyTruthyOpt res.1 then
      if env.sendOk then
        { st with
            conversations := log_conversation st.conversations now email name
              body res.1 false none,
            stats := { st.stats with ai_responded := st.stats.ai_responded + 1 },
            replies := st.replies.erase reply }
      else st
    else
      if env.notifyOk then
        { st with
            notifLog := mark_as_manually_handled
              (st.notifLog ++ [notifSentLine now email res.2]) now email,
            conversations := log_conversation st.conversations now email name
              body none true res.2,
            stats := { st.stats with
              escalated_to_human := st.stats.escalated_to_human + 1 },
            replies := st.replies.erase reply }
      else
        { st with stats := { st.stats with failed := st.stats.failed + 1 } }

/-- The loop of `process_customer_replies` over the snapshot of the queue,
consuming one oracle per iteration. -/
def processLoop (now : Nat) : List StepEnv → List Reply → Stores → Stores
  | _, [], st => st
  | envs, r :: rest, st =>
    processLoop now envs.tail rest (processStep (envs.headD defaultStepEnv) now st r)

/-- `process_customer_replies`: loads the queue, zeroes the counters, runs the
loop over a snapshot of the queue, and persists the resulting live queue. -/
def process_customer_replies (envs : List StepEnv) (now : Nat)
    (replies0 : List Reply) (conv0 : List ConvEntry)
    (notif0 : List (List Char)) : Stores :=
  processLoop now envs replies0 ⟨replies0, conv0, notif0, ⟨0, 0, 0, 0⟩⟩

/-! ### Reply discovery: the recursive IMAP OR-query -/

/-- The IMAP atom `FROM "<address>"`. -/
def fromRender (a : List Char) : List Char := "FROM \"".toList ++ a ++ ['"']

/-- `build_or_query(emails)`: `None` for an empty list, a direct `FROM` match
for one address, a flat pairwise `OR` for two, and for more an `OR` of the two
parenthesised recursive halves split at `len // 2`.  (As in the Python
f-string, an impossible `None` from a recursive call would be interpolated as
the text `None`.) -/
def build_or_query : List (List Char) → Option (List Char)
  | [] => none
  | [a] => some (fromRender a)
  | [a, b] => some ("OR ".toList ++ fromRender a ++ ' ' :: fromRender b)
  | a :: b :: c :: rest =>
    let l := a :: b :: c :: rest
    let mid := l.length / 2
    some ("OR (".toList ++ (build_or_query (l.take mid)).getD "None".toList
      ++ ") (".toList ++ (build_or_query (l.drop mid)).getD "None".toList
      ++ [')'])
termination_by l => l.length
decreasing_by
  · simp only [List.length_take, List.length_cons]
    omega
  · simp only [List.length_drop, List.length_cons]
    omega

/-- The shape of the query `build_or_query` produces: a `FROM` atom, a flat
pairwise `OR`, or an `OR` of two parenthesised subqueries. -/
inductive ImapQuery where
  | fromAddr (a : List Char)
  | orPair (a b : List Char)
  | orNode (l r : ImapQuery)

/-- Rendering of an `ImapQuery` into the source's query-string syntax. -/
def renderQuery : ImapQuery → List Char
  | .fromAddr a => fromRender a
  | .orPair a b => "OR ".toList ++ fromRender a ++ ' ' :: fromRender b
  | .orNode l r =>
    "OR (".toList ++ renderQuery l ++ ") (".toList ++ renderQuery r ++ [')']

/-- The OR-tree of `build_or_query`, as a structured query. -/
def buildOrTree : List (List Char) → Option ImapQuery
  | [] => none
  | [a] => some (.fromAddr a)
  | [a, b] => some (.orPair a b)
  | a :: b :: c :: rest =>
    let l := a :: b :: c :: rest
    let mid := l.length / 2
    some (.orNode ((buildOrTree (l.take mid)).getD (.fromAddr "None".toList))
      ((buildOrTree (l.drop mid)).getD (.fromAddr "None".toList)))
termination_by l => l.length
decreasing_by
  · simp only [List.length_take, List.length_cons]
    omega
  · simp only [List.length_drop, List.length_cons]
    omega

/-- Evaluation of a query against a message whose sender is `sender`: a
`FROM "a"` atom matches exactly the sender `a`, `OR` is disjunction. -/
def evalQuery (sender : List Char) : ImapQuery → Bool
  | .fromAddr a => sender == a
  | .orPair a b => sender == a || sender == b
  | .orNode l r => evalQuery sender l || evalQuery sender r

/-! ### Per-step behaviour of the state machine -/

/-- Number of replies that reached a terminal outcome so far in a pass. -/
def termCount (st : Stores) : Nat :=
  st.stats.ai_responded + st.stats.escalated_to_human

/-- Whether the pass's suppression check fires for a reply against a given
notification-log state. -/
def suppressedAt (log : List (List Char)) (now : Nat) (r : Reply) : Bool :=
  was_manually_handled (some log) (pyLower r.from_email) now 24

/-- Whether one loop iteration reaches a terminal outcome, read off the
source's branches: not suppressed, and then either a usable draft with a
successful send (`AI_RESPONDED`) or an unusable draft with a successful
notification (`ESCALATED`). -/
def stepTerminal (env : StepEnv) (now : Nat) (st : Stores) (r : Reply) : Bool :=
  if suppressedAt st.notifLog now r then false
  else if pyTruthyOpt (generate_ai_response env.gen).1 then env.sendOk
  else env.notifyOk

/-- The replies of the snapshot that reach a terminal outcome during the
pass, in processing order (the state threads through `processStep` exactly as
in `processLoop`). -/
def terminalReplies (now : Nat) : List StepEnv → List Reply → Stores → List Reply
  | _, [], _ => []
  | envs, r :: rest, st =>
    if stepTerminal (envs.headD defaultStepEnv) now st r then
      r :: terminalReplies now envs.tail rest
        (processStep (envs.headD defaultStepEnv) now st r)
    else
      terminalReplies now envs.tail rest
        (processStep (envs.headD defaultStepEnv) now st r)

/-- The replies of the snapshot whose iteration is non-terminal (skipped as
suppressed, send failure, or notification failure), in processing order. -/
def retainedReplies (now : Nat) : List StepEnv → List Reply → Stores → List Reply
  | _, [], _ => []
  | envs, r :: rest, st =>
    if stepTerminal (envs.headD defaultStepEnv) now st r then
      retainedReplies now envs.tail rest
        (processStep (envs.headD defaultStepEnv) now st r)
    else
      r :: retainedReplies now envs.tail rest
        (processStep (envs.headD defaultStepEnv) now st r)

/-- All transport sends and notifications succeed for these oracles (“no
transport errors”). -/
def envsOk (envs : List StepEnv) : Bool :=
  envs.all fun e => e.sendOk && e.notifyOk


/-! ### Lemmas and claim theorems -/

theorem digitVal?_digitChar (n : Nat) : digitVal? (digitChar (n % 10)) = some (n % 10) := by
  have h : n % 10 < 10 := Nat.mod_lt _ (by decide)
  generalize hk : n % 10 = k at *
  interval_cases k <;> decide

theorem digits2?_digitChar (a b : Nat) :
    digits2? (digitChar (a % 10)) (digitChar (b % 10)) = some ((a % 10) * 10 + b % 10) := by
  simp [digits2?, digitVal?_digitChar]

theorem digits4?_digitChar (a b c d : Nat) :
    digits4? (digitChar (a % 10)) (digitChar (b % 10)) (digitChar (c % 10))
      (digitChar (d % 10)) =
      some (((a % 10) * 10 + b % 10) * 100 + ((c % 10) * 10 + d % 10)) := by
  simp [digits4?, digits2?_digitChar]

theorem parseTs_render (Y M D H Mi S : Nat) (hY : Y < 10000) (hM1 : 1 ≤ M)
    (hM2 : M ≤ 12) (hD1 : 1 ≤ D) (hD2 : D ≤ 31) (hH : H < 24) (hMi : Mi < 60)
    (hS : S < 60) :
    parseTsChars (pad4 Y ++ '-' :: pad2 M ++ '-' :: pad2 D ++ ' ' :: pad2 H
        ++ ':' :: pad2 Mi ++ ':' :: pad2 S) =
      some ((Y * 372 + (M - 1) * 31 + (D - 1)) * 86400 + H * 3600 + Mi * 60 + S) := by
  simp only [pad4, pad2, List.cons_append, List.nil_append, List.append_assoc]
  simp only [parseTsChars, digits4?_digitChar, digits2?_digitChar]
  rw [if_pos (by simp)]
  simp only [Option.bind_eq_bind, Option.some_bind]
  have eY : ((Y / 1000 % 10) * 10 + Y / 100 % 10) * 100 + ((Y / 10 % 10) * 10 + Y % 10) = Y := by
    omega
  have eM : (M / 10 % 10) * 10 + M % 10 = M := by omega
  have eD : (D / 10 % 10) * 10 + D % 10 = D := by omega
  have eH : (H / 10 % 10) * 10 + H % 10 = H := by omega
  have eMi : (Mi / 10 % 10) * 10 + Mi % 10 = Mi := by omega
  have eS : (S / 10 % 10) * 10 + S % 10 = S := by omega
  rw [eY, eM, eD, eH, eMi, eS]
  rw [if_pos (by omega)]

theorem parseTs_fmtTs (t : Nat) (ht : t < tsBound) :
    parseTsChars (fmtTsChars t) = some t := by
  have hy : t / 86400 / 372 < 10000 := by
    unfold tsBound at ht
    omega
  simp only [fmtTsChars]
  rw [parseTs_render _ _ _ _ _ _ hy (by omega) (by omega) (by omega) (by omega)
    (by omega) (by omega) (by omega)]
  congr 1
  omega

theorem toNat_digitChar (n : Nat) : (digitChar (n % 10)).toNat = 48 + n % 10 := by
  have h : n % 10 < 10 := Nat.mod_lt _ (by decide)
  generalize hk : n % 10 = k at *
  interval_cases k <;> decide

theorem fmt_char_le (t : Nat) : ∀ c ∈ fmtTsChars t, c.toNat ≤ 58 := by
  intro c hc
  simp only [fmtTsChars, pad4, pad2, List.cons_append, List.nil_append,
    List.append_assoc, List.mem_cons, List.mem_append, List.mem_singleton,
    List.not_mem_nil, or_false] at hc
  rcases hc with h|h|h|h|h|h|h|h|h|h|h|h|h|h|h|h|h|h|h <;> subst h <;>
    first
      | decide
      | (rw [toNat_digitChar]; omega)

theorem lsq_not_mem_fmt (t : Nat) : '[' ∉ fmtTsChars t := by
  intro h
  exact absurd (fmt_char_le t _ h) (by decide)

theorem rsq_not_mem_fmt (t : Nat) : ']' ∉ fmtTsChars t := by
  intro h
  exact absurd (fmt_char_le t _ h) (by decide)

theorem splitOnChar_ne_nil (sep : Char) (l : List Char) : splitOnChar sep l ≠ [] := by
  cases l with
  | nil => simp [splitOnChar]
  | cons c rest =>
    simp only [splitOnChar]
    split <;> simp

theorem splitOnChar_cons_sep (sep : Char) (l : List Char) :
    splitOnChar sep (sep :: l) = [] :: splitOnChar sep l := by
  simp [splitOnChar]

theorem splitOnChar_cons_ne (sep c : Char) (l : List Char) (h : c ≠ sep) :
    splitOnChar sep (c :: l) =
      (c :: (splitOnChar sep l).headD []) :: (splitOnChar sep l).tail := by
  simp [splitOnChar, h]

theorem headD_splitOnChar_append (sep : Char) (xs ys : List Char) (h : sep ∉ xs) :
    (splitOnChar sep (xs ++ ys)).headD [] = xs ++ (splitOnChar sep ys).headD [] := by
  induction xs with
  | nil => simp
  | cons c rest ih =>
    have hc : c ≠ sep := fun hcs => h (hcs ▸ List.mem_cons_self c rest)
    have hr : sep ∉ rest := fun hm => h (List.mem_cons_of_mem c hm)
    rw [List.cons_append, splitOnChar_cons_ne sep c (rest ++ ys) hc]
    simp only [List.headD_cons, List.cons_append]
    rw [ih hr]

theorem scan_cons_skip (email line : List Char) (now hours : Nat)
    (rest : List (List Char)) (hc : lineSkipped email line = true) :
    was_manually_handled_lines email now hours (line :: rest) =
      was_manually_handled_lines email now hours rest := by
  rw [lineSkipped, Bool.not_eq_true'] at hc
  rw [was_manually_handled_lines, if_neg (by rw [hc]; exact Bool.false_ne_true)]

theorem scan_cons_noExtract (email line : List Char) (now hours : Nat)
    (rest : List (List Char))
    (hc : (pyContains email line
      && pyContains "MANUAL_HANDLED".toList line) = true)
    (he : extractTs line = none) :
    was_manually_handled_lines email now hours (line :: rest) = false := by
  rw [was_manually_handled_lines, if_pos hc, he]

theorem scan_cons_noParse (email line ts : List Char) (now hours : Nat)
    (rest : List (List Char))
    (hc : (pyContains email line
      && pyContains "MANUAL_HANDLED".toList line) = true)
    (he : extractTs line = some ts) (hp : parseTsChars ts = none) :
    was_manually_handled_lines email now hours (line :: rest) = false := by
  rw [was_manually_handled_lines, if_pos hc, he]
  show (match parseTsChars ts with
    | none => false
    | some t =>
      if (now : Int) - (hours : Int) * 3600 < (t : Int) then true
      else was_manually_handled_lines email now hours rest) = false
  rw [hp]

theorem scan_cons_parsed (email line ts : List Char) (t now hours : Nat)
    (rest : List (List Char))
    (hc : (pyContains email line
      && pyContains "MANUAL_HANDLED".toList line) = true)
    (he : extractTs line = some ts) (hp : parseTsChars ts = some t) :
    was_manually_handled_lines email now hours (line :: rest) =
      if (now : Int) - (hours : Int) * 3600 < (t : Int) then true
      else was_manually_handled_lines email now hours rest := by
  rw [was_manually_handled_lines, if_pos hc, he]
  show (match parseTsChars ts with
    | none => false
    | some t =>
      if (now : Int) - (hours : Int) * 3600 < (t : Int) then true
      else was_manually_handled_lines email now hours rest) = _
  rw [hp]

theorem extractTs_bracketed (ts rest : List Char) (h1 : '[' ∉ ts)
    (h2 : ']' ∉ ts) : extractTs ('[' :: ts ++ ']' :: rest) = some ts := by
  have hhead : (splitOnChar '[' (ts ++ ']' :: rest)).headD [] =
      ts ++ ']' :: (splitOnChar '[' rest).headD [] := by
    rw [headD_splitOnChar_append _ _ _ h1,
      splitOnChar_cons_ne '[' ']' rest (by decide)]
    simp
  simp only [extractTs, List.cons_append, splitOnChar_cons_sep]
  cases hr : splitOnChar '[' (ts ++ ']' :: rest) with
  | nil => exact absurd hr (splitOnChar_ne_nil _ _)
  | cons x xs =>
    have hx : x = ts ++ ']' :: (splitOnChar '[' rest).headD [] := by
      simpa [hr] using hhead
    simp only []
    rw [hx, headD_splitOnChar_append _ _ _ h2, splitOnChar_cons_sep]
    simp

theorem pyContains_of_append (n a b : List Char) :
    pyContains n (a ++ n ++ b) = true := by
  rw [pyContains, List.any_eq_true]
  refine ⟨a.length, List.mem_range.2 ?_, ?_⟩
  · simp only [List.length_append]
    omega
  · rw [List.append_assoc, List.drop_left]
    exact List.isPrefixOf_iff_prefix.2 (List.prefix_append n b)

theorem pyContains_suffix (n a : List Char) : pyContains n (a ++ n) = true := by
  simpa using pyContains_of_append n a []

/-- A line written by `mark_as_manually_handled` for `email` passes both
substring tests of `was_manually_handled` for that same `email`. -/
theorem manualHandledLine_matches (now : Nat) (email : List Char) :
    (pyContains email (manualHandledLine now email)
      && pyContains "MANUAL_HANDLED".toList (manualHandledLine now email)) = true := by
  apply Bool.and_eq_true_iff.2
  constructor
  · have h := pyContains_suffix email
      ('[' :: fmtTsChars now ++ ']' :: " MANUAL_HANDLED | Customer: ".toList)
    simpa [manualHandledLine, List.append_assoc] using h
  · have hsplit : (" MANUAL_HANDLED | Customer: ".toList : List Char) =
        [' '] ++ "MANUAL_HANDLED".toList ++ " | Customer: ".toList := by decide
    have h := pyContains_of_append "MANUAL_HANDLED".toList
      ('[' :: fmtTsChars now ++ ']' :: [' '])
      (" | Customer: ".toList ++ email)
    rw [manualHandledLine, hsplit]
    simpa [List.append_assoc] using h

theorem scan_all_skipped (email : List Char) (now hours : Nat)
    (lines : List (List Char)) (h : lines.all (lineSkipped email) = true) :
    was_manually_handled_lines email now hours lines = false := by
  induction lines with
  | nil => rfl
  | cons line rest ih =>
    rw [List.all_cons, Bool.and_eq_true_iff] at h
    rw [scan_cons_skip email line now hours rest h.1]
    exact ih h.2

/-- The scan over a log holding exactly one `MANUAL_HANDLED` entry for
`email`, stamped `T`, surrounded by lines that mention neither the email nor
the tag: the result is exactly the window comparison `T > now - hours·3600`
from the source. -/
theorem scan_single_entry (email : List Char) (T now hours : Nat)
    (pre post : List (List Char)) (hT : T < tsBound)
    (hpre : pre.all (lineSkipped email) = true)
    (hpost : post.all (lineSkipped email) = true) :
    was_manually_handled_lines email now hours
        (pre ++ manualHandledLine T email :: post) =
      decide ((now : Int) - (hours : Int) * 3600 < (T : Int)) := by
  induction pre with
  | nil =>
    have hext : extractTs (manualHandledLine T email) = some (fmtTsChars T) := by
      rw [manualHandledLine]
      exact extractTs_bracketed (fmtTsChars T) _ (lsq_not_mem_fmt T) (rsq_not_mem_fmt T)
    rw [List.nil_append,
      scan_cons_parsed email _ _ T now hours post
        (manualHandledLine_matches T email) hext (parseTs_fmtTs T hT)]
    by_cases hw : (now : Int) - (hours : Int) * 3600 < (T : Int)
    · simp [hw]
    · simp only [if_neg hw, hw, decide_eq_false_iff_not, not_false_iff]
      exact scan_all_skipped email now hours post hpost
  | cons line rest ih =>
    rw [List.all_cons, Bool.and_eq_true_iff] at hpre
    rw [List.cons_append, scan_cons_skip email line now hours _ hpre.1]
    exact ih hpre.2

/-- A scan that already succeeded keeps succeeding after the log grows
at the end (the suppression log is append-only within a pass). -/
theorem scan_true_append (email : List Char) (now hours : Nat)
    (l ext : List (List Char))
    (h : was_manually_handled_lines email now hours l = true) :
    was_manually_handled_lines email now hours (l ++ ext) = true := by
  induction l with
  | nil => exact absurd h (by simp [was_manually_handled_lines])
  | cons line rest ih =>
    rw [List.cons_append]
    by_cases hc : (pyContains email line
        && pyContains "MANUAL_HANDLED".toList line) = true
    · cases he : extractTs line with
      | none =>
        rw [scan_cons_noExtract email line now hours rest hc he] at h
        exact absurd h (by simp)
      | some ts =>
        cases hp : parseTsChars ts with
        | none =>
          rw [scan_cons_noParse email line ts now hours rest hc he hp] at h
          exact absurd h (by simp)
        | some t =>
          rw [scan_cons_parsed email line ts t now hours rest hc he hp] at h
          rw [scan_cons_parsed email line ts t now hours _ hc he hp]
          by_cases hw : (now : Int) - (hours : Int) * 3600 < (t : Int)
          · rw [if_pos hw]
          · rw [if_neg hw] at h
            rw [if_neg hw]
            exact ih h
    · have hs : lineSkipped email line = true := by
        rw [lineSkipped]
        cases hxb : (pyContains email line
            && pyContains "MANUAL_HANDLED".toList line) with
        | false => rfl
        | true => exact absurd hxb hc
      rw [scan_cons_skip email line now hours rest hs] at h
      rw [scan_cons_skip email line now hours _ hs]
      exact ih h

theorem buildOrTree_eq_none_iff (l : List (List Char)) :
    buildOrTree l = none ↔ l = [] := by
  match l with
  | [] => simp [buildOrTree]
  | [a] => simp [buildOrTree]
  | [a, b] => simp [buildOrTree]
  | a :: b :: c :: rest => simp [buildOrTree]

theorem build_or_query_eq_none_iff (l : List (List Char)) :
    build_or_query l = none ↔ l = [] := by
  match l with
  | [] => simp [build_or_query]
  | [a] => simp [build_or_query]
  | [a, b] => simp [build_or_query]
  | a :: b :: c :: rest => simp [build_or_query]

theorem build_or_query_eq_render (l : List (List Char)) :
    build_or_query l = (buildOrTree l).map renderQuery := by
  induction l using build_or_query.induct with
  | case1 => simp [build_or_query, buildOrTree]
  | case2 a => simp [build_or_query, buildOrTree, renderQuery]
  | case3 a b => simp [build_or_query, buildOrTree, renderQuery]
  | case4 a b c rest l mid ih1 ih2 =>
    have htake : (a :: b :: c :: rest).take ((a :: b :: c :: rest).length / 2) ≠ [] := by
      intro hnil
      have := congrArg List.length hnil
      simp only [List.length_take, List.length_cons, List.length_nil] at this
      omega
    have hdrop : (a :: b :: c :: rest).drop ((a :: b :: c :: rest).length / 2) ≠ [] := by
      intro hnil
      have := congrArg List.length hnil
      simp only [List.length_drop, List.length_cons, List.length_nil] at this
      omega
    cases hq1 : buildOrTree ((a :: b :: c :: rest).take ((a :: b :: c :: rest).length / 2)) with
    | none => exact absurd ((buildOrTree_eq_none_iff _).1 hq1) htake
    | some t1 =>
      cases hq2 : buildOrTree ((a :: b :: c :: rest).drop ((a :: b :: c :: rest).length / 2)) with
      | none => exact absurd ((buildOrTree_eq_none_iff _).1 hq2) hdrop
      | some t2 =>
        simp only [build_or_query, buildOrTree, hq1, hq2, ih1, ih2]
        simp [renderQuery, List.append_assoc]

theorem evalQuery_buildOrTree (l : List (List Char)) (sender : List Char) :
    ∀ q, buildOrTree l = some q → (evalQuery sender q = true ↔ sender ∈ l) := by
  induction l using buildOrTree.induct with
  | case1 => intro q hq; simp [buildOrTree] at hq
  | case2 a =>
    intro q hq
    simp only [buildOrTree, Option.some.injEq] at hq
    subst hq
    simp [evalQuery]
  | case3 a b =>
    intro q hq
    simp only [buildOrTree, Option.some.injEq] at hq
    subst hq
    simp [evalQuery]
  | case4 a b c rest l mid ih1 ih2 =>
    intro q hq
    have htake : (a :: b :: c :: rest).take ((a :: b :: c :: rest).length / 2) ≠ [] := by
      intro hnil
      have := congrArg List.length hnil
      simp only [List.length_take, List.length_cons, List.length_nil] at this
      omega
    have hdrop : (a :: b :: c :: rest).drop ((a :: b :: c :: rest).length / 2) ≠ [] := by
      intro hnil
      have := congrArg List.length hnil
      simp only [List.length_drop, List.length_cons, List.length_nil] at this
      omega
    cases hq1 : buildOrTree ((a :: b :: c :: rest).take ((a :: b :: c :: rest).length / 2)) with
    | none => exact absurd ((buildOrTree_eq_none_iff _).1 hq1) htake
    | some t1 =>
      cases hq2 : buildOrTree ((a :: b :: c :: rest).drop ((a :: b :: c :: rest).length / 2)) with
      | none => exact absurd ((buildOrTree_eq_none_iff _).1 hq2) hdrop
      | some t2 =>
        simp only [buildOrTree, hq1, hq2, Option.getD_some, Option.some.injEq] at hq
        subst hq
        have hmem : sender ∈ a :: b :: c :: rest ↔
            sender ∈ (a :: b :: c :: rest).take ((a :: b :: c :: rest).length / 2)
              ∨ sender ∈ (a :: b :: c :: rest).drop ((a :: b :: c :: rest).length / 2) := by
          rw [← List.mem_append, List.take_append_drop]
        rw [evalQuery]
        simp only [Bool.or_eq_true, ih1 t1 hq1, ih2 t2 hq2, hmem]

theorem processStep_skip (env : StepEnv) (now : Nat) (st : Stores) (r : Reply)
    (h : suppressedAt st.notifLog now r = true) :
    processStep env now st r =
      { st with stats := { st.stats with
          skipped_manual := st.stats.skipped_manual + 1 } } := by
  rw [suppressedAt] at h
  simp only [processStep, h, if_true]

theorem processStep_sendOk (env : StepEnv) (now : Nat) (st : Stores) (r : Reply)
    (h : suppressedAt st.notifLog now r = false)
    (h2 : pyTruthyOpt (generate_ai_response env.gen).1 = true)
    (h3 : env.sendOk = true) :
    processStep env now st r =
      { st with
          conversations := log_conversation st.conversations now
            (pyLower r.from_email)
            (pyTitle ((splitOnChar '@' (pyLower r.from_email)).headD []))
            r.body (generate_ai_response env.gen).1 false none,
          stats := { st.stats with ai_responded := st.stats.ai_responded + 1 },
          replies := st.replies.erase r } := by
  rw [suppressedAt] at h
  simp only [processStep, h, h2, h3, Bool.false_eq_true, if_false, if_true]

theorem processStep_sendFail (env : StepEnv) (now : Nat) (st : Stores) (r : Reply)
    (h : suppressedAt st.notifLog now r = false)
    (h2 : pyTruthyOpt (generate_ai_response env.gen).1 = true)
    (h3 : env.sendOk = false) :
    processStep env now st r = st := by
  rw [suppressedAt] at h
  simp only [processStep, h, h2, h3, Bool.false_eq_true, if_false, if_true]

theorem processStep_notifyOk (env : StepEnv) (now : Nat) (st : Stores) (r : Reply)
    (h : suppressedAt st.notifLog now r = false)
    (h2 : pyTruthyOpt (generate_ai_response env.gen).1 = false)
    (h3 : env.notifyOk = true) :
    processStep env now st r =
      { st with
          notifLog := mark_as_manually_handled
            (st.notifLog ++ [notifSentLine now (pyLower r.from_email)
              (generate_ai_response env.gen).2]) now (pyLower r.from_email),
          conversations := log_conversation st.conversations now
            (pyLower r.from_email)
            (pyTitle ((splitOnChar '@' (pyLower r.from_email)).headD []))
            r.body none true (generate_ai_response env.gen).2,
          stats := { st.stats with
            escalated_to_human := st.stats.escalated_to_human + 1 },
          replies := st.replies.erase r } := by
  rw [suppressedAt] at h
  simp only [processStep, h, h2, h3, Bool.false_eq_true, if_false, if_true]

theorem processStep_notifyFail (env : StepEnv) (now : Nat) (st : Stores) (r : Reply)
    (h : suppressedAt st.notifLog now r = false)
    (h2 : pyTruthyOpt (generate_ai_response env.gen).1 = false)
    (h3 : env.notifyOk = false) :
    processStep env now st r =
      { st with stats := { st.stats with failed := st.stats.failed + 1 } } := by
  rw [suppressedAt] at h
  simp only [processStep, h, h2, h3, Bool.false_eq_true, if_false, if_true]

/-- Every step either leaves the three stores untouched (non-terminal), or is
terminal: it removes the processed reply from the live queue, appends exactly
one conversation entry carrying the reply's sender and body, possibly extends
the notification log at its end, and bumps the terminal count by one. -/
theorem processStep_cases (env : StepEnv) (now : Nat) (st : Stores) (r : Reply) :
    (stepTerminal env now st r = false
        ∧ (processStep env now st r).replies = st.replies
        ∧ (processStep env now st r).conversations = st.conversations
        ∧ (processStep env now st r).notifLog = st.notifLog
        ∧ termCount (processStep env now st r) = termCount st)
      ∨ (stepTerminal env now st r = true
        ∧ (processStep env now st r).replies = st.replies.erase r
        ∧ (∃ e, (processStep env now st r).conversations = st.conversations ++ [e]
            ∧ e.customer_email = pyLower r.from_email
            ∧ e.customer_message = r.body)
        ∧ (∃ ext, (processStep env now st r).notifLog = st.notifLog ++ ext)
        ∧ termCount (processStep env now st r) = termCount st + 1) := by
  cases hsup : suppressedAt st.notifLog now r with
  | true =>
    rw [processStep_skip env now st r hsup]
    left
    exact ⟨by simp [stepTerminal, hsup], rfl, rfl, rfl, rfl⟩
  | false =>
    cases htr : pyTruthyOpt (generate_ai_response env.gen).1 with
    | true =>
      cases hsend : env.sendOk with
      | true =>
        rw [processStep_sendOk env now st r hsup htr hsend]
        right
        refine ⟨by simp [stepTerminal, hsup, htr, hsend],
          rfl, ⟨_, rfl, rfl, rfl⟩, ⟨[], (List.append_nil _).symm⟩, ?_⟩
        simp only [termCount]
        omega
      | false =>
        rw [processStep_sendFail env now st r hsup htr hsend]
        left
        exact ⟨by simp [stepTerminal, hsup, htr, hsend], rfl, rfl, rfl, rfl⟩
    | false =>
      cases hnot : env.notifyOk with
      | true =>
        rw [processStep_notifyOk env now st r hsup htr hnot]
        right
        refine ⟨by simp [stepTerminal, hsup, htr, hnot],
          rfl, ⟨_, rfl, rfl, rfl⟩,
          ⟨[notifSentLine now (pyLower r.from_email) (generate_ai_response env.gen).2,
            manualHandledLine now (pyLower r.from_email)], ?_⟩, ?_⟩
        · rw [mark_as_manually_handled, List.append_assoc]
          rfl
        · simp only [termCount]
          omega
      | false =>
        rw [processStep_notifyFail env now st r hsup htr hnot]
        left
        exact ⟨by simp [stepTerminal, hsup, htr, hnot], rfl, rfl, rfl, rfl⟩

/-! ### Whole-pass accounting -/

/-- Main accounting lemma for one pass: starting from a state whose live queue
covers the remaining snapshot (count-wise), the loop appends a block `Δ` of
conversation entries in one-to-one order-preserving correspondence with the
terminal replies (`Forall₂`: each entry carries the sender and body of ITS
removed reply); the live queue loses exactly the multiset of terminal replies
and stays a sublist of what it was; and the terminal replies all come from
the snapshot. -/
theorem processLoop_spec (now : Nat) :
    ∀ (remaining : List Reply) (envs : List StepEnv) (st : Stores),
    (∀ x, remaining.count x ≤ st.replies.count x) →
    ∃ Δ, (processLoop now envs remaining st).conversations = st.conversations ++ Δ
      ∧ termCount (processLoop now envs remaining st) = termCount st + Δ.length
      ∧ List.Forall₂ (fun e x => e.customer_email = pyLower x.from_email
            ∧ e.customer_message = x.body)
          Δ (terminalReplies now envs remaining st)
      ∧ (∀ x, st.replies.count x
          = (processLoop now envs remaining st).replies.count x
            + (terminalReplies now envs remaining st).count x)
      ∧ (processLoop now envs remaining st).replies.length + Δ.length
          = st.replies.length
      ∧ (processLoop now envs remaining st).replies.Sublist st.replies
      ∧ ∀ x ∈ terminalReplies now envs remaining st, x ∈ remaining := by
  intro remaining
  induction remaining with
  | nil =>
    intro envs st hcount
    exact ⟨[], by simp [processLoop], by simp [processLoop],
      by simp [terminalReplies], by simp [processLoop, terminalReplies],
      by simp [processLoop], by simp [processLoop], by simp [terminalReplies]⟩
  | cons c rest ih =>
    intro envs st hcount
    rw [processLoop]
    rcases processStep_cases (envs.headD defaultStepEnv) now st c with
      ⟨hterm, hr, hcv, hnl, htc⟩ | ⟨hterm, hr, ⟨e, hcv, he1, he2⟩, ⟨ext, hnl⟩, htc⟩
    · have hT : terminalReplies now envs (c :: rest) st
          = terminalReplies now envs.tail rest
              (processStep (envs.headD defaultStepEnv) now st c) := by
        rw [terminalReplies, if_neg (by rw [hterm]; exact Bool.false_ne_true)]
      have hc2 : ∀ x,
          rest.count x ≤ (processStep (envs.headD defaultStepEnv) now st c).replies.count x := by
        intro x
        rw [hr]
        exact le_trans (List.count_le_count_cons x c rest) (hcount x)
      obtain ⟨Δ, h1, h2, h3, h4, h5, h6, h7⟩ :=
        ih envs.tail (processStep (envs.headD defaultStepEnv) now st c) hc2
      refine ⟨Δ, ?_, ?_, ?_, ?_, ?_, ?_, ?_⟩
      · rw [h1, hcv]
      · rw [h2, htc]
      · rw [hT]
        exact h3
      · intro x
        rw [hT, ← hr]
        exact h4 x
      · rw [hr] at h5
        exact h5
      · rw [hr] at h6
        exact h6
      · intro x hx
        rw [hT] at hx
        exact List.mem_cons_of_mem c (h7 x hx)
    · have hmem : c ∈ st.replies := by
        have h1 : 0 < (c :: rest).count c := by simp
        exact List.count_pos_iff.1 (lt_of_lt_of_le h1 (hcount c))
      have hT : terminalReplies now envs (c :: rest) st
          = c :: terminalReplies now envs.tail rest
              (processStep (envs.headD defaultStepEnv) now st c) := by
        rw [terminalReplies, if_pos hterm]
      have hc2 : ∀ x,
          rest.count x ≤ (processStep (envs.headD defaultStepEnv) now st c).replies.count x := by
        intro x
        rw [hr]
        by_cases hxc : x = c
        · subst hxc
          rw [List.count_erase_self]
          have hx := hcount x
          rw [List.count_cons_self] at hx
          omega
        · rw [List.count_erase_of_ne hxc]
          have hx := hcount x
          rwa [List.count_cons_of_ne hxc] at hx
      obtain ⟨Δ, h1, h2, h3, h4, h5, h6, h7⟩ :=
        ih envs.tail (processStep (envs.headD defaultStepEnv) now st c) hc2
      refine ⟨e :: Δ, ?_, ?_, ?_, ?_, ?_, ?_, ?_⟩
      · rw [h1, hcv, List.append_assoc]
        rfl
      · rw [h2, htc, List.length_cons]
        omega
      · rw [hT]
        exact List.Forall₂.cons ⟨he1, he2⟩ h3
      · intro x
        rw [hT]
        have h4x := h4 x
        rw [hr] at h4x
        by_cases hxc : x = c
        · subst hxc
          rw [List.count_cons_self]
          rw [List.count_erase_self] at h4x
          have hpos : 0 < st.replies.count x := List.count_pos_iff.2 hmem
          omega
        · rw [List.count_cons_of_ne hxc]
          rw [List.count_erase_of_ne hxc] at h4x
          exact h4x
      · rw [hr, List.length_erase_of_mem hmem] at h5
        have hpos : 0 < st.replies.length := List.length_pos_of_mem hmem
        rw [List.length_cons]
        omega
      · rw [hr] at h6
        exact h6.trans (List.erase_sublist c st.replies)
      · intro x hx
        rw [hT] at hx
        rcases List.mem_cons.1 hx with rfl | hm
        · exact List.mem_cons_self x rest
        · exact List.mem_cons_of_mem c (h7 x hm)

/-- Every snapshot reply is accounted for exactly once, either as terminal or
as retained (the two collectors follow the same branches in lockstep). -/
theorem terminal_retained_partition (now : Nat) :
    ∀ (remaining : List Reply) (envs : List StepEnv) (st : Stores) (x : Reply),
    (terminalReplies now envs remaining st).count x
      + (retainedReplies now envs remaining st).count x = remaining.count x := by
  intro remaining
  induction remaining with
  | nil =>
    intro envs st x
    simp [terminalReplies, retainedReplies]
  | cons c rest ih =>
    intro envs st x
    rw [terminalReplies, retainedReplies]
    by_cases hb : stepTerminal (envs.headD defaultStepEnv) now st c = true
    · rw [if_pos hb, if_pos hb]
      by_cases hxc : x = c
      · subst hxc
        rw [List.count_cons_self, List.count_cons_self]
        have := ih envs.tail (processStep (envs.headD defaultStepEnv) now st x) x
        omega
      · rw [List.count_cons_of_ne hxc, List.count_cons_of_ne hxc]
        exact ih envs.tail (processStep (envs.headD defaultStepEnv) now st c) x
    · rw [if_neg hb, if_neg hb]
      by_cases hxc : x = c
      · subst hxc
        rw [List.count_cons_self, List.count_cons_self]
        have := ih envs.tail (processStep (envs.headD defaultStepEnv) now st x) x
        omega
      · rw [List.count_cons_of_ne hxc, List.count_cons_of_ne hxc]
        exact ih envs.tail (processStep (envs.headD defaultStepEnv) now st c) x

/-- Suppression is monotone under growing the log at its end (with the query
instant fixed): a scan that already found a recent entry still finds it. -/
theorem suppressedAt_append (log ext : List (List Char)) (now : Nat) (r : Reply)
    (h : suppressedAt log now r = true) :
    suppressedAt (log ++ ext) now r = true := by
  rw [suppressedAt, was_manually_handled] at h ⊢
  exact scan_true_append _ now 24 log ext h

/-- With a working transport (send and notify both succeed), every step is
either a pure skip of a suppressed reply or terminal. -/
theorem processStep_all_ok (env : StepEnv) (now : Nat) (st : Stores) (r : Reply)
    (hs : env.sendOk = true) (hn : env.notifyOk = true) :
    (suppressedAt st.notifLog now r = true
      ∧ processStep env now st r = { st with stats := { st.stats with
          skipped_manual := st.stats.skipped_manual + 1 } })
  ∨ (suppressedAt st.notifLog now r = false
      ∧ (processStep env now st r).replies = st.replies.erase r
      ∧ (∃ ext, (processStep env now st r).notifLog = st.notifLog ++ ext)
      ∧ (processStep env now st r).stats.skipped_manual = st.stats.skipped_manual
      ∧ termCount (processStep env now st r) = termCount st + 1) := by
  cases hsup : suppressedAt st.notifLog now r with
  | true => exact Or.inl ⟨rfl, processStep_skip env now st r hsup⟩
  | false =>
    right
    refine ⟨rfl, ?_⟩
    cases htr : pyTruthyOpt (generate_ai_response env.gen).1 with
    | true =>
      rw [processStep_sendOk env now st r hsup htr hs]
      refine ⟨rfl, ⟨[], (List.append_nil _).symm⟩, rfl, ?_⟩
      simp only [termCount]
      omega
    | false =>
      rw [processStep_notifyOk env now st r hsup htr hn]
      refine ⟨rfl,
        ⟨[notifSentLine now (pyLower r.from_email) (generate_ai_response env.gen).2,
          manualHandledLine now (pyLower r.from_email)], ?_⟩, rfl, ?_⟩
      · rw [mark_as_manually_handled, List.append_assoc]
        rfl
      · simp only [termCount]
        omega

/-- With a working transport, a pass leaves in the live queue only replies
that are suppressed with respect to the final log state, and every iteration
accounts for exactly one skip or one terminal outcome. -/
theorem processLoop_all_ok (now : Nat) :
    ∀ (remaining : List Reply) (envs : List StepEnv) (st : Stores),
    remaining.length ≤ envs.length →
    (∀ env ∈ envs, env.sendOk = true ∧ env.notifyOk = true) →
    (∀ x : Reply, suppressedAt st.notifLog now x = false →
      st.replies.count x ≤ remaining.count x) →
    (∀ x ∈ (processLoop now envs remaining st).replies,
        suppressedAt (processLoop now envs remaining st).notifLog now x = true)
      ∧ (processLoop now envs remaining st).stats.skipped_manual
          + termCount (processLoop now envs remaining st)
        = st.stats.skipped_manual + termCount st + remaining.length := by
  intro remaining
  induction remaining with
  | nil =>
    intro envs st _ _ hcount
    refine ⟨?_, by simp [processLoop]⟩
    intro x hx
    cases hsup : suppressedAt (processLoop now envs [] st).notifLog now x with
    | true => rfl
    | false =>
      simp only [processLoop] at hx hsup
      have := hcount x hsup
      have hpos : 0 < st.replies.count x := List.count_pos_iff.2 hx
      simp only [List.count_nil] at this
      omega
  | cons c rest ih =>
    intro envs st hlen hok hcount
    cases envs with
    | nil => simp at hlen
    | cons env etail =>
      have henv : env.sendOk = true ∧ env.notifyOk = true :=
        hok env (List.mem_cons_self env etail)
      have hoktail : ∀ e ∈ etail, e.sendOk = true ∧ e.notifyOk = true :=
        fun e he => hok e (List.mem_cons_of_mem env he)
      have hlentail : rest.length ≤ etail.length := by
        simp only [List.length_cons] at hlen
        omega
      rw [processLoop]
      simp only [List.tail_cons, List.headD_cons]
      rcases processStep_all_ok env now st c henv.1 henv.2 with
        ⟨hsup, hstep⟩ | ⟨hsup, hr, ⟨ext, hnl⟩, hsk, htc⟩
      · have hc2 : ∀ x : Reply,
            suppressedAt (processStep env now st c).notifLog now x = false →
            (processStep env now st c).replies.count x ≤ rest.count x := by
          intro x hx
          rw [hstep] at hx ⊢
          have hxc : x ≠ c := by
            intro hxx
            subst hxx
            rw [hx] at hsup
            exact Bool.false_ne_true hsup
          have := hcount x hx
          rwa [List.count_cons_of_ne hxc] at this
        obtain ⟨h1, h2⟩ := ih etail (processStep env now st c) hlentail hoktail hc2
        refine ⟨h1, ?_⟩
        rw [h2, hstep]
        simp only [termCount, List.length_cons]
        omega
      · have hc2 : ∀ x : Reply,
            suppressedAt (processStep env now st c).notifLog now x = false →
            (processStep env now st c).replies.count x ≤ rest.count x := by
          intro x hx
          have hx0 : suppressedAt st.notifLog now x = false := by
            cases hx0 : suppressedAt st.notifLog now x with
            | false => rfl
            | true =>
              have := suppressedAt_append st.notifLog ext now x hx0
              rw [← hnl] at this
              rw [this] at hx
              exact absurd hx (by decide)
          have hbase := hcount x hx0
          rw [hr]
          by_cases hxc : x = c
          · subst hxc
            rw [List.count_erase_self]
            rw [List.count_cons_self] at hbase
            omega
          · rw [List.count_erase_of_ne hxc]
            rwa [List.count_cons_of_ne hxc] at hbase
        obtain ⟨h1, h2⟩ := ih etail (processStep env now st c) hlentail hoktail hc2
        refine ⟨h1, ?_⟩
        rw [h2, hsk, htc, List.length_cons]
        omega

/-- A pass over a queue whose every member is already suppressed with respect
to the current log changes none of the three durable stores. -/
theorem processLoop_suppressed (now : Nat) :
    ∀ (remaining : List Reply) (envs : List StepEnv) (st : Stores),
    (∀ x ∈ remaining, suppressedAt st.notifLog now x = true) →
    (processLoop now envs remaining st).replies = st.replies
      ∧ (processLoop now envs remaining st).conversations = st.conversations
      ∧ (processLoop now envs remaining st).notifLog = st.notifLog := by
  intro remaining
  induction remaining with
  | nil => intro envs st _; exact ⟨rfl, rfl, rfl⟩
  | cons c rest ih =>
    intro envs st hsup
    rw [processLoop,
      processStep_skip _ now st c (hsup c (List.mem_cons_self c rest))]
    have hrest : ∀ x ∈ rest,
        suppressedAt ({ st with stats := { st.stats with
          skipped_manual := st.stats.skipped_manual + 1 } } : Stores).notifLog now x = true :=
      fun x hx => hsup x (List.mem_cons_of_mem c hx)
    obtain ⟨h1, h2, h3⟩ := ih envs.tail _ hrest
    exact ⟨h1, h2, h3⟩

/-! ### Claim theorems -/

/-- C1: if `mark_as_manually_handled(R)` writes its entry at instant `T` into
a log whose other lines never satisfy both substring tests for `R`, then
`was_manually_handled(R, hours=24)` returns `true` at every query instant in
`(T, T + 24h)` and `false` at every query instant at or after `T + 24h`. -/
theorem c1_suppression_window (email : List Char) (T now : Nat)
    (pre post : List (List Char)) (hT : T < tsBound)
    (hpre : pre.all (lineSkipped email) = true)
    (hpost : post.all (lineSkipped email) = true) :
    (T < now → now < T + 24 * 3600 →
      was_manually_handled (some (mark_as_manually_handled pre T email ++ post))
        email now 24 = true)
    ∧ (T + 24 * 3600 ≤ now →
      was_manually_handled (some (mark_as_manually_handled pre T email ++ post))
        email now 24 = false) := by
  have hlist : mark_as_manually_handled pre T email ++ post
      = pre ++ manualHandledLine T email :: post := by
    rw [mark_as_manually_handled, List.append_assoc, List.singleton_append]
  have hscan := scan_single_entry email T now 24 pre post hT hpre hpost
  constructor
  · intro h1 h2
    rw [hlist, was_manually_handled, hscan, decide_eq_true_eq]
    push_cast
    omega
  · intro h1
    rw [hlist, was_manually_handled, hscan, decide_eq_false_iff_not]
    push_cast
    omega

theorem c1_suppression_window_witness :
    ((1700000000 : Nat) < tsBound
      ∧ (["unrelated log line".toList] : List (List Char)).all
          (lineSkipped "a@x.com".toList) = true
      ∧ ([] : List (List Char)).all (lineSkipped "a@x.com".toList) = true)
    ∧ ((1700000000 < 1700003600 → 1700003600 < 1700000000 + 24 * 3600 →
        was_manually_handled
          (some (mark_as_manually_handled ["unrelated log line".toList]
            1700000000 "a@x.com".toList ++ []))
          "a@x.com".toList 1700003600 24 = true)
      ∧ (1700000000 + 24 * 3600 ≤ 1700003600 →
        was_manually_handled
          (some (mark_as_manually_handled ["unrelated log line".toList]
            1700000000 "a@x.com".toList ++ []))
          "a@x.com".toList 1700003600 24 = false)) :=
  ⟨⟨by decide, by decide, by decide⟩,
    c1_suppression_window "a@x.com".toList 1700000000 1700003600
      ["unrelated log line".toList] [] (by decide) (by decide) (by decide)⟩

/-- C9: the suppression check matches recipients by substring containment:
marking the distinct address `ab@x.com` as handled makes the query for
`b@x.com` — never manually handled — return `true` one hour later. -/
theorem c9_substring_suppression :
    ("b@x.com".toList ≠ "ab@x.com".toList)
    ∧ was_manually_handled
        (some (mark_as_manually_handled [] 1700000000 "ab@x.com".toList))
        "b@x.com".toList 1700003600 24 = true := by
  constructor
  · decide
  · decide

/-- C2: a reply is removed from the queue during a pass only as a terminal
outcome, and the pass appends its conversation entries in one-to-one
order-preserving correspondence (`Forall₂`) with exactly those removed
replies, each entry carrying its reply's normalized sender email and customer
message body; the number of entries equals the number of terminal outcomes,
and the queue loses exactly the multiset of terminal replies. -/
theorem c2_removal_matches_conversation (envs : List StepEnv) (now : Nat)
    (replies0 : List Reply) (conv0 : List ConvEntry)
    (notif0 : List (List Char)) :
    ∃ Δ, (process_customer_replies envs now replies0 conv0 notif0).conversations
        = conv0 ++ Δ
      ∧ Δ.length
        = (process_customer_replies envs now replies0 conv0 notif0).stats.ai_responded
          + (process_customer_replies envs now replies0 conv0 notif0).stats.escalated_to_human
      ∧ List.Forall₂ (fun e x => e.customer_email = pyLower x.from_email
            ∧ e.customer_message = x.body)
          Δ (terminalReplies now envs replies0 ⟨replies0, conv0, notif0, ⟨0, 0, 0, 0⟩⟩)
      ∧ ∀ x, replies0.count x
          = (process_customer_replies envs now replies0 conv0 notif0).replies.count x
            + (terminalReplies now envs replies0
                ⟨replies0, conv0, notif0, ⟨0, 0, 0, 0⟩⟩).count x := by
  obtain ⟨Δ, h1, h2, h3, h4, h5, h6, h7⟩ := processLoop_spec now replies0 envs
    ⟨replies0, conv0, notif0, ⟨0, 0, 0, 0⟩⟩ (fun x => le_refl _)
  refine ⟨Δ, h1, ?_, h3, h4⟩
  show Δ.length = termCount (processLoop now envs replies0
    ⟨replies0, conv0, notif0, ⟨0, 0, 0, 0⟩⟩)
  rw [h2]
  simp [termCount]

/-- C10: the queue persisted at the end of a pass equals the loaded queue
minus exactly the replies that reached a terminal outcome (`terminalReplies`,
read off the source's branches), with relative order preserved (`Sublist`):
the pass never adds, duplicates or reorders entries, the number removed
equals the terminal-outcome count, and every removed reply came from the
loaded queue. -/
theorem c10_queue_sublist (envs : List StepEnv) (now : Nat)
    (replies0 : List Reply) (conv0 : List ConvEntry)
    (notif0 : List (List Char)) :
    (process_customer_replies envs now replies0 conv0 notif0).replies.Sublist replies0
    ∧ (∀ x, replies0.count x
        = (process_customer_replies envs now replies0 conv0 notif0).replies.count x
          + (terminalReplies now envs replies0
              ⟨replies0, conv0, notif0, ⟨0, 0, 0, 0⟩⟩).count x)
    ∧ (terminalReplies now envs replies0
          ⟨replies0, conv0, notif0, ⟨0, 0, 0, 0⟩⟩).length
        = (process_customer_replies envs now replies0 conv0 notif0).stats.ai_responded
          + (process_customer_replies envs now replies0 conv0 notif0).stats.escalated_to_human
    ∧ ∀ x ∈ terminalReplies now envs replies0
        ⟨replies0, conv0, notif0, ⟨0, 0, 0, 0⟩⟩, x ∈ replies0 := by
  obtain ⟨Δ, h1, h2, h3, h4, h5, h6, h7⟩ := processLoop_spec now replies0 envs
    ⟨replies0, conv0, notif0, ⟨0, 0, 0, 0⟩⟩ (fun x => le_refl _)
  refine ⟨h6, h4, ?_, h7⟩
  show (terminalReplies now envs replies0
      ⟨replies0, conv0, notif0, ⟨0, 0, 0, 0⟩⟩).length
    = termCount (processLoop now envs replies0
      ⟨replies0, conv0, notif0, ⟨0, 0, 0, 0⟩⟩)
  rw [← h3.length_eq, h2]
  simp [termCount]

/-- C3: a reply whose draft succeeded (usable non-empty response) but whose
mail delivery failed leaves the whole state untouched: it stays in the queue,
no conversation entry is written, and `ai_responded` is unchanged, so a later
pass retries it. -/
theorem c3_send_failure_retries (env : StepEnv) (now : Nat) (st : Stores)
    (r : Reply) (resp : List Char)
    (h : suppressedAt st.notifLog now r = false)
    (hresp : (generate_ai_response env.gen).1 = some resp)
    (hne : resp ≠ [])
    (hsend : env.sendOk = false) :
    processStep env now st r = st := by
  apply processStep_sendFail env now st r h _ hsend
  rw [hresp, pyTruthyOpt]
  cases resp with
  | nil => exact absurd rfl hne
  | cons c cs => rfl

theorem c3_send_failure_retries_witness :
    (suppressedAt ([] : List (List Char)) 1700000000
        ⟨"a@x.com".toList, "Offer".toList, "What is the price?".toList,
          "t0".toList, "link".toList⟩ = false
      ∧ (generate_ai_response (StepEnv.mk
          (.ok "Thanks for asking.".toList false) false true).gen).1
        = some "Thanks for asking.".toList
      ∧ "Thanks for asking.".toList ≠ ([] : List Char)
      ∧ (StepEnv.mk (.ok "Thanks for asking.".toList false) false true).sendOk
        = false)
    ∧ processStep (StepEnv.mk (.ok "Thanks for asking.".toList false) false true)
        1700000000
        ⟨[⟨"a@x.com".toList, "Offer".toList, "What is the price?".toList,
            "t0".toList, "link".toList⟩], [], [], ⟨0, 0, 0, 0⟩⟩
        ⟨"a@x.com".toList, "Offer".toList, "What is the price?".toList,
          "t0".toList, "link".toList⟩
      = ⟨[⟨"a@x.com".toList, "Offer".toList, "What is the price?".toList,
            "t0".toList, "link".toList⟩], [], [], ⟨0, 0, 0, 0⟩⟩ :=
  ⟨⟨by decide, by decide, by decide, by decide⟩,
    c3_send_failure_retries _ 1700000000 _ _ "Thanks for asking.".toList
      (by decide) (by decide) (by decide) (by decide)⟩

/-- C4: a reply on the escalation path whose owner notification failed stays
in the queue, only the `failed` counter moves, no conversation entry is
written, and no suppression entry is recorded, so the next pass retries the
escalation. -/
theorem c4_notif_failure_retries (env : StepEnv) (now : Nat) (st : Stores)
    (r : Reply)
    (h : suppressedAt st.notifLog now r = false)
    (h2 : pyTruthyOpt (generate_ai_response env.gen).1 = false)
    (h3 : env.notifyOk = false) :
    (processStep env now st r).replies = st.replies
    ∧ (processStep env now st r).stats.failed = st.stats.failed + 1
    ∧ (processStep env now st r).conversations = st.conversations
    ∧ (processStep env now st r).notifLog = st.notifLog := by
  rw [processStep_notifyFail env now st r h h2 h3]
  exact ⟨rfl, rfl, rfl, rfl⟩

theorem c4_notif_failure_retries_witness :
    (suppressedAt ([] : List (List Char)) 1700000000
        ⟨"a@x.com".toList, "Offer".toList, "Need a discount".toList,
          "t0".toList, "link".toList⟩ = false
      ∧ pyTruthyOpt (generate_ai_response (StepEnv.mk
          (.error "model unavailable".toList) true false).gen).1 = false
      ∧ (StepEnv.mk (.error "model unavailable".toList) true false).notifyOk
        = false)
    ∧ ((processStep (StepEnv.mk (.error "model unavailable".toList) true false)
          1700000000
          ⟨[⟨"a@x.com".toList, "Offer".toList, "Need a discount".toList,
              "t0".toList, "link".toList⟩], [], [], ⟨0, 0, 0, 0⟩⟩
          ⟨"a@x.com".toList, "Offer".toList, "Need a discount".toList,
            "t0".toList, "link".toList⟩).replies
        = [⟨"a@x.com".toList, "Offer".toList, "Need a discount".toList,
            "t0".toList, "link".toList⟩]
      ∧ (processStep (StepEnv.mk (.error "model unavailable".toList) true false)
          1700000000
          ⟨[⟨"a@x.com".toList, "Offer".toList, "Need a discount".toList,
              "t0".toList, "link".toList⟩], [], [], ⟨0, 0, 0, 0⟩⟩
          ⟨"a@x.com".toList, "Offer".toList, "Need a discount".toList,
            "t0".toList, "link".toList⟩).stats.failed = 0 + 1
      ∧ (processStep (StepEnv.mk (.error "model unavailable".toList) true false)
          1700000000
          ⟨[⟨"a@x.com".toList, "Offer".toList, "Need a discount".toList,
              "t0".toList, "link".toList⟩], [], [], ⟨0, 0, 0, 0⟩⟩
          ⟨"a@x.com".toList, "Offer".toList, "Need a discount".toList,
            "t0".toList, "link".toList⟩).conversations = []
      ∧ (processStep (StepEnv.mk (.error "model unavailable".toList) true false)
          1700000000
          ⟨[⟨"a@x.com".toList, "Offer".toList, "Need a discount".toList,
              "t0".toList, "link".toList⟩], [], [], ⟨0, 0, 0, 0⟩⟩
          ⟨"a@x.com".toList, "Offer".toList, "Need a discount".toList,
            "t0".toList, "link".toList⟩).notifLog = []) :=
  ⟨⟨by decide, by decide, by decide⟩,
    c4_notif_failure_retries _ 1700000000 _ _ (by decide) (by decide) (by decide)⟩

/-- C7: a generator exception (model failure or unparseable output) is
returned as `(None, raw error text)` — no exception propagates — and the
reply then takes the escalation path: on successful notification it is
escalated with that raw text recorded as the reason; on failed notification
only the `failed` counter moves.  It is never sent an AI response and never
silently dropped. -/
theorem c7_generator_error_escalates (env : StepEnv) (now : Nat) (st : Stores)
    (r : Reply) (e : List Char)
    (hgen : env.gen = .error e)
    (h : suppressedAt st.notifLog now r = false) :
    generate_ai_response env.gen = (none, some e)
    ∧ (env.notifyOk = true →
        (processStep env now st r).conversations = st.conversations
            ++ [⟨now, pyLower r.from_email,
                pyTitle ((splitOnChar '@' (pyLower r.from_email)).headD []),
                r.body, none, true, some e⟩]
          ∧ (processStep env now st r).replies = st.replies.erase r)
    ∧ (env.notifyOk = false →
        processStep env now st r =
          { st with stats := { st.stats with failed := st.stats.failed + 1 } }) := by
  have hga : generate_ai_response env.gen = (none, some e) := by
    rw [hgen, generate_ai_response]
  have htr : pyTruthyOpt (generate_ai_response env.gen).1 = false := by
    rw [hga]
    rfl
  refine ⟨hga, ?_, ?_⟩
  · intro hn
    rw [processStep_notifyOk env now st r h htr hn, hga]
    exact ⟨rfl, rfl⟩
  · intro hn
    exact processStep_notifyFail env now st r h htr hn

theorem c7_generator_error_escalates_witness :
    ((StepEnv.mk (.error "invalid JSON output".toList) true true).gen
        = .error "invalid JSON output".toList
      ∧ suppressedAt ([] : List (List Char)) 1700000000
          ⟨"a@x.com".toList, "Offer".toList, "??".toList,
            "t0".toList, "link".toList⟩ = false)
    ∧ (generate_ai_response (StepEnv.mk
          (.error "invalid JSON output".toList) true true).gen
        = (none, some "invalid JSON output".toList)
      ∧ ((StepEnv.mk (.error "invalid JSON output".toList) true true).notifyOk = true →
          (processStep (StepEnv.mk (.error "invalid JSON output".toList) true true)
              1700000000
              ⟨[⟨"a@x.com".toList, "Offer".toList, "??".toList,
                  "t0".toList, "link".toList⟩], [], [], ⟨0, 0, 0, 0⟩⟩
              ⟨"a@x.com".toList, "Offer".toList, "??".toList,
                "t0".toList, "link".toList⟩).conversations = []
              ++ [⟨1700000000, pyLower "a@x.com".toList,
                  pyTitle ((splitOnChar '@' (pyLower "a@x.com".toList)).headD []),
                  "??".toList, none, true, some "invalid JSON output".toList⟩]
            ∧ (processStep (StepEnv.mk (.error "invalid JSON output".toList) true true)
              1700000000
              ⟨[⟨"a@x.com".toList, "Offer".toList, "??".toList,
                  "t0".toList, "link".toList⟩], [], [], ⟨0, 0, 0, 0⟩⟩
              ⟨"a@x.com".toList, "Offer".toList, "??".toList,
                "t0".toList, "link".toList⟩).replies
              = [⟨"a@x.com".toList, "Offer".toList, "??".toList,
                  "t0".toList, "link".toList⟩].erase
                  ⟨"a@x.com".toList, "Offer".toList, "??".toList,
                    "t0".toList, "link".toList⟩)
      ∧ ((StepEnv.mk (.error "invalid JSON output".toList) true true).notifyOk = false →
          processStep (StepEnv.mk (.error "invalid JSON output".toList) true true)
              1700000000
              ⟨[⟨"a@x.com".toList, "Offer".toList, "??".toList,
                  "t0".toList, "link".toList⟩], [], [], ⟨0, 0, 0, 0⟩⟩
              ⟨"a@x.com".toList, "Offer".toList, "??".toList,
                "t0".toList, "link".toList⟩
            = ⟨[⟨"a@x.com".toList, "Offer".toList, "??".toList,
                  "t0".toList, "link".toList⟩], [], [], ⟨0, 0, 0, 1⟩⟩)) :=
  ⟨⟨rfl, by decide⟩,
    c7_generator_error_escalates _ 1700000000 _ _ "invalid JSON output".toList
      rfl (by decide)⟩

/-- C5: the OR-query over a non-empty address list renders exactly the
recursively built OR-tree (empty list: no query; one address: a direct `FROM`
atom; two: a flat pairwise `OR`; more: an `OR` of the two parenthesised
halves), and evaluating that tree matches precisely the senders in the list —
no false positives or negatives for any list. -/
theorem c5_or_query (l : List (List Char)) (sender : List Char)
    (hne : l ≠ []) :
    build_or_query [] = none
    ∧ (∀ a, build_or_query [a] = some (fromRender a))
    ∧ (∀ a b, build_or_query [a, b]
        = some ("OR ".toList ++ fromRender a ++ ' ' :: fromRender b))
    ∧ ∃ q, buildOrTree l = some q
        ∧ build_or_query l = some (renderQuery q)
        ∧ (evalQuery sender q = true ↔ sender ∈ l) := by
  refine ⟨(build_or_query_eq_none_iff []).2 rfl,
    fun a => by simp [build_or_query],
    fun a b => by simp [build_or_query], ?_⟩
  cases hq : buildOrTree l with
  | none => exact absurd ((buildOrTree_eq_none_iff l).1 hq) hne
  | some q =>
    refine ⟨q, rfl, ?_, evalQuery_buildOrTree l sender q hq⟩
    rw [build_or_query_eq_render, hq]
    rfl

theorem c5_or_query_witness :
    (["a@x.com".toList, "b@x.com".toList, "c@x.com".toList,
        "d@x.com".toList, "e@x.com".toList] ≠ ([] : List (List Char)))
    ∧ (build_or_query [] = none
      ∧ (∀ a, build_or_query [a] = some (fromRender a))
      ∧ (∀ a b, build_or_query [a, b]
          = some ("OR ".toList ++ fromRender a ++ ' ' :: fromRender b))
      ∧ ∃ q, buildOrTree ["a@x.com".toList, "b@x.com".toList, "c@x.com".toList,
            "d@x.com".toList, "e@x.com".toList] = some q
          ∧ build_or_query ["a@x.com".toList, "b@x.com".toList, "c@x.com".toList,
              "d@x.com".toList, "e@x.com".toList] = some (renderQuery q)
          ∧ (evalQuery "c@x.com".toList q = true
            ↔ "c@x.com".toList ∈ ["a@x.com".toList, "b@x.com".toList,
                "c@x.com".toList, "d@x.com".toList, "e@x.com".toList])) :=
  ⟨by decide,
    c5_or_query ["a@x.com".toList, "b@x.com".toList, "c@x.com".toList,
      "d@x.com".toList, "e@x.com".toList] "c@x.com".toList (by decide)⟩

/-- C6 counterexample: two pending replies from the same sender, fresh logs,
no transport errors: the first reply is escalated, which starts the sender's
suppression window, so the second reply is skipped and the queue after the
first pass is NOT empty — refuting the claim's "pending queue is empty after
the first pass". -/
theorem c6_counterexample :
    envsOk [StepEnv.mk (.error "no pricing info".toList) true true,
        StepEnv.mk (.error "no pricing info".toList) true true] = true
    ∧ (process_customer_replies
        [StepEnv.mk (.error "no pricing info".toList) true true,
          StepEnv.mk (.error "no pricing info".toList) true true]
        1700000000
        [⟨"a@x.com".toList, "Offer".toList, "First question".toList,
            "t0".toList, "link".toList⟩,
          ⟨"a@x.com".toList, "Offer".toList, "Second question".toList,
            "t1".toList, "link".toList⟩]
        [] []).replies ≠ [] := by
  constructor
  · decide
  · decide

/-- C6 (amended): with no transport errors in the first pass, the second of
two back-to-back passes changes none of the durable stores, whatever its own
oracles are; the queue left by the first pass retains exactly the replies
whose iteration was non-terminal (`retainedReplies`) — under the working
transport these are precisely the replies skipped by the manual-handling
suppression check: every retained reply is suppressed with respect to the
final log, the `skipped_manual` counter equals the number retained, and the
queue is empty if and only if no reply was skipped. -/
theorem c6_idempotent_drain (envs1 envs2 : List StepEnv) (now : Nat)
    (replies0 : List Reply) (conv0 : List ConvEntry)
    (notif0 : List (List Char)) (st1 st2 : Stores)
    (h1 : envsOk envs1 = true) (h2 : replies0.length ≤ envs1.length)
    (hst1 : st1 = process_customer_replies envs1 now replies0 conv0 notif0)
    (hst2 : st2 = process_customer_replies envs2 now st1.replies
        st1.conversations st1.notifLog) :
    st2.replies = st1.replies
    ∧ st2.conversations = st1.conversations
    ∧ st2.notifLog = st1.notifLog
    ∧ (∀ x ∈ st1.replies, suppressedAt st1.notifLog now x = true)
    ∧ (∀ x : Reply, st1.replies.count x
        = (retainedReplies now envs1 replies0
            ⟨replies0, conv0, notif0, ⟨0, 0, 0, 0⟩⟩).count x)
    ∧ st1.stats.skipped_manual = st1.replies.length
    ∧ (st1.replies = [] ↔ st1.stats.skipped_manual = 0) := by
  have e1 : process_customer_replies envs1 now replies0 conv0 notif0
      = processLoop now envs1 replies0
          ⟨replies0, conv0, notif0, ⟨0, 0, 0, 0⟩⟩ := rfl
  have e2 : process_customer_replies envs2 now st1.replies st1.conversations
        st1.notifLog
      = processLoop now envs2 st1.replies
          ⟨st1.replies, st1.conversations, st1.notifLog, ⟨0, 0, 0, 0⟩⟩ := rfl
  rw [e1] at hst1
  rw [e2] at hst2
  have hok : ∀ env ∈ envs1, env.sendOk = true ∧ env.notifyOk = true := by
    intro env henv
    have := List.all_eq_true.1 h1 env henv
    exact ⟨Bool.and_eq_true_iff.1 this |>.1, Bool.and_eq_true_iff.1 this |>.2⟩
  obtain ⟨hsup, hacct⟩ := processLoop_all_ok now replies0 envs1
    ⟨replies0, conv0, notif0, ⟨0, 0, 0, 0⟩⟩ h2 hok (fun x _ => le_refl _)
  rw [← hst1] at hsup hacct
  obtain ⟨Δ, hd1, hd2, hd3, hd4, hd5, hd6, hd7⟩ := processLoop_spec now replies0
    envs1 ⟨replies0, conv0, notif0, ⟨0, 0, 0, 0⟩⟩ (fun x => le_refl _)
  rw [← hst1] at hd2 hd4 hd5
  obtain ⟨g1, g2, g3⟩ := processLoop_suppressed now st1.replies envs2
    ⟨st1.replies, st1.conversations, st1.notifLog, ⟨0, 0, 0, 0⟩⟩
    (fun x hx => hsup x hx)
  rw [← hst2] at g1 g2 g3
  have iacct : st1.stats.skipped_manual + termCount st1
      = 0 + 0 + replies0.length := hacct
  have id2 : termCount st1 = 0 + Δ.length := hd2
  have id5 : st1.replies.length + Δ.length = replies0.length := hd5
  have hskip : st1.stats.skipped_manual = st1.replies.length := by
    omega
  refine ⟨g1, g2, g3, hsup, ?_, hskip, ?_⟩
  · intro x
    have hpart := terminal_retained_partition now replies0 envs1
      ⟨replies0, conv0, notif0, ⟨0, 0, 0, 0⟩⟩ x
    have hd4x : replies0.count x = st1.replies.count x
        + (terminalReplies now envs1 replies0
            ⟨replies0, conv0, notif0, ⟨0, 0, 0, 0⟩⟩).count x := hd4 x
    omega
  · constructor
    · intro he
      rw [hskip, he]
      rfl
    · intro hz
      rw [hskip] at hz
      exact List.eq_nil_of_length_eq_zero hz

theorem c6_idempotent_drain_witness :
    (envsOk [StepEnv.mk (.ok "ok".toList false) true true] = true
      ∧ ([⟨"a@b".toList, "s".toList, "m".toList, "t".toList, "l".toList⟩]
          : List Reply).length
        ≤ ([StepEnv.mk (.ok "ok".toList false) true true] : List StepEnv).length
      ∧ (⟨[], [⟨1700000000, "a@b".toList, "A".toList, "m".toList,
            some "ok".toList, false, none⟩], [], ⟨1, 0, 0, 0⟩⟩ : Stores)
        = process_customer_replies
            [StepEnv.mk (.ok "ok".toList false) true true] 1700000000
            [⟨"a@b".toList, "s".toList, "m".toList, "t".toList, "l".toList⟩]
            [] []
      ∧ (⟨[], [⟨1700000000, "a@b".toList, "A".toList, "m".toList,
            some "ok".toList, false, none⟩], [], ⟨0, 0, 0, 0⟩⟩ : Stores)
        = process_customer_replies [] 1700000000
            ((⟨[], [⟨1700000000, "a@b".toList, "A".toList, "m".toList,
                some "ok".toList, false, none⟩], [], ⟨1, 0, 0, 0⟩⟩ : Stores)).replies
            ((⟨[], [⟨1700000000, "a@b".toList, "A".toList, "m".toList,
                some "ok".toList, false, none⟩], [], ⟨1, 0, 0, 0⟩⟩ : Stores)).conversations
            ((⟨[], [⟨1700000000, "a@b".toList, "A".toList, "m".toList,
                some "ok".toList, false, none⟩], [], ⟨1, 0, 0, 0⟩⟩ : Stores)).notifLog)
    ∧ ((⟨[], [⟨1700000000, "a@b".toList, "A".toList, "m".toList,
          some "ok".toList, false, none⟩], [], ⟨0, 0, 0, 0⟩⟩ : Stores).replies
        = (⟨[], [⟨1700000000, "a@b".toList, "A".toList, "m".toList,
            some "ok".toList, false, none⟩], [], ⟨1, 0, 0, 0⟩⟩ : Stores).replies
      ∧ (⟨[], [⟨1700000000, "a@b".toList, "A".toList, "m".toList,
          some "ok".toList, false, none⟩], [], ⟨0, 0, 0, 0⟩⟩ : Stores).conversations
        = (⟨[], [⟨1700000000, "a@b".toList, "A".toList, "m".toList,
            some "ok".toList, false, none⟩], [], ⟨1, 0, 0, 0⟩⟩ : Stores).conversations
      ∧ (⟨[], [⟨1700000000, "a@b".toList, "A".toList, "m".toList,
          some "ok".toList, false, none⟩], [], ⟨0, 0, 0, 0⟩⟩ : Stores).notifLog
        = (⟨[], [⟨1700000000, "a@b".toList, "A".toList, "m".toList,
            some "ok".toList, false, none⟩], [], ⟨1, 0, 0, 0⟩⟩ : Stores).notifLog
      ∧ (∀ x ∈ (⟨[], [⟨1700000000, "a@b".toList, "A".toList, "m".toList,
            some "ok".toList, false, none⟩], [], ⟨1, 0, 0, 0⟩⟩ : Stores).replies,
          suppressedAt (⟨[], [⟨1700000000, "a@b".toList, "A".toList, "m".toList,
              some "ok".toList, false, none⟩], [], ⟨1, 0, 0, 0⟩⟩ : Stores).notifLog
            1700000000 x = true)
      ∧ (∀ x : Reply, ((⟨[], [⟨1700000000, "a@b".toList, "A".toList, "m".toList,
            some "ok".toList, false, none⟩], [], ⟨1, 0, 0, 0⟩⟩ : Stores)).replies.count x
          = (retainedReplies 1700000000
              [StepEnv.mk (.ok "ok".toList false) true true]
              [⟨"a@b".toList, "s".toList, "m".toList, "t".toList, "l".toList⟩]
              ⟨[⟨"a@b".toList, "s".toList, "m".toList, "t".toList, "l".toList⟩],
                [], [], ⟨0, 0, 0, 0⟩⟩).count x)
      ∧ (⟨[], [⟨1700000000, "a@b".toList, "A".toList, "m".toList,
          some "ok".toList, false, none⟩], [], ⟨1, 0, 0, 0⟩⟩ : Stores).stats.skipped_manual
        = (⟨[], [⟨1700000000, "a@b".toList, "A".toList, "m".toList,
            some "ok".toList, false, none⟩], [], ⟨1, 0, 0, 0⟩⟩ : Stores).replies.length
      ∧ ((⟨[], [⟨1700000000, "a@b".toList, "A".toList, "m".toList,
          some "ok".toList, false, none⟩], [], ⟨1, 0, 0, 0⟩⟩ : Stores).replies = []
        ↔ (⟨[], [⟨1700000000, "a@b".toList, "A".toList, "m".toList,
            some "ok".toList, false, none⟩], [], ⟨1, 0, 0, 0⟩⟩ : Stores).stats.skipped_manual
          = 0)) :=
  ⟨⟨by decide, by decide, by decide, by decide⟩,
    c6_idempotent_drain
      [StepEnv.mk (.ok "ok".toList false) true true] [] 1700000000
      [⟨"a@b".toList, "s".toList, "m".toList, "t".toList, "l".toList⟩] [] []
      ⟨[], [⟨1700000000, "a@b".toList, "A".toList, "m".toList,
        some "ok".toList, false, none⟩], [], ⟨1, 0, 0, 0⟩⟩
      ⟨[], [⟨1700000000, "a@b".toList, "A".toList, "m".toList,
        some "ok".toList, false, none⟩], [], ⟨0, 0, 0, 0⟩⟩
      (by decide) (by decide) (by decide) (by decide)⟩

end SmartReach
